import Mathlib

/-!
Shallow embedding of `src/sortino_ratio.py` (the `Portfolio` dataclass and
its methods) and proofs about it.

Modelling conventions:
* A per-asset price history (`_asset_data['Close']`, a pandas Series of
  float64 closing prices, chronological with the oldest date at position 0)
  is a `List ℚ`.  Machine floats are modelled as exact rationals; the one
  float behaviour that the program's control flow exposes — division by
  zero yielding `inf`/`-inf`/`nan` instead of raising — is modelled
  explicitly by the `NpVal` and `SortinoResult` types at the two division
  sites where it can occur (`sortino_ratio` and the per-asset beta).
* All per-asset series are assumed date-aligned (the pandas index of every
  series is the same), which is the regime the spec's data model demands
  (dates common to all assets).  Under that assumption pandas's
  index-aligned `+` is element-wise addition, modelled by `List.zipWith`.
* Python exceptions that the code can actually raise (indexing an empty
  series, subscripting the int 0 left in `portf_value` when the asset list
  is empty) are modelled with `Except PyErr`.  The source defines no error
  classes of its own: no `UndefinedRatioError`, `InsufficientDataError` or
  `DegenerateBenchmarkError` exists anywhere in `src/`, so no such
  constructor appears here either.
* Plain `/` on `ℚ` is Lean's total division (`q / 0 = 0`).  Every theorem
  whose meaning depends on a denominator keeps the relevant site either
  guarded by a hypothesis or routed through `NpVal.div` / `SortinoResult`,
  which reproduce the numpy float semantics at zero.
-/

/-- Python exceptions the modelled code can raise. -/
inductive PyErr where
  /-- positional indexing (`[0]` or `[-1]`) on an empty pandas Series -/
  | indexError
  /-- subscripting the plain int `0` that `portf_value` still holds when
      `asset_list` is empty -/
  | typeError
deriving DecidableEq, Repr

/-- Element-wise addition of two aligned pandas Series
(`Series + Series` under an identical index). -/
def seriesAdd (a b : List ℚ) : List ℚ := List.zipWith (· + ·) a b

/-- `pandasAdd acc s` is one step of `self.portf_value += s`:
`acc = none` models the initial scalar `0` (so the addition broadcasts and
returns `s` itself); `acc = some v` is an already-accumulated Series. -/
def pandasAdd (acc : Option (List ℚ)) (s : List ℚ) : Option (List ℚ) :=
  match acc with
  | none => some s
  | some v => some (seriesAdd v s)

/-- The accumulation loop of `_download_data`:
`portf_value = 0; for asset: portf_value += close_series / len(asset_list)`.
`none` is the untouched scalar `0` (asset list empty). -/
def portf_value_acc (asset_list : List (List ℚ)) : Option (List ℚ) :=
  asset_list.foldl
    (fun acc s => pandasAdd acc (s.map (fun p => p / (asset_list.length : ℚ)))) none

/-- `_portfolio_return`: `(portf_value[-1] / portf_value[0] - 1) * 100`.
Positional `[0]` / `[-1]` on an empty Series raise `IndexError`. -/
def portfolio_return (portf_value : List ℚ) : Except PyErr ℚ :=
  match portf_value with
  | [] => .error .indexError
  | v0 :: rest => .ok (((v0 :: rest).getLastD v0 / v0 - 1) * 100)

/-- `_negative_excess_returns`: loop over `portf_value`, appending
`((i / (portf_value[0] + risk_free_rate) - 1) * 100) ** 2` whenever
`i < portf_value[0] + risk_free_rate`.  On an empty series the loop body
never runs and `ner` stays `[]`. -/
def negative_excess_returns (portf_value : List ℚ) (risk_free_rate : ℚ) : List ℚ :=
  match portf_value with
  | [] => []
  | v0 :: rest =>
    (v0 :: rest).foldl
      (fun acc i =>
        if i < v0 + risk_free_rate then
          acc ++ [((i / (v0 + risk_free_rate) - 1) * 100) ^ 2]
        else acc) []

/-- A numpy float64 value abstracted to its exact-rational content plus the
three non-finite states.  Signed zeros are not distinguished. -/
inductive NpVal where
  | fin (q : ℚ)
  | posInf
  | negInf
  | nan
deriving DecidableEq, Repr

/-- numpy float64 addition on `NpVal` (exact on finite operands). -/
def NpVal.add : NpVal → NpVal → NpVal
  | fin a, fin b => fin (a + b)
  | fin _, posInf => posInf
  | fin _, negInf => negInf
  | fin _, nan => nan
  | posInf, fin _ => posInf
  | posInf, posInf => posInf
  | posInf, negInf => nan
  | posInf, nan => nan
  | negInf, fin _ => negInf
  | negInf, posInf => nan
  | negInf, negInf => negInf
  | negInf, nan => nan
  | nan, _ => nan

/-- numpy float64 multiplication on `NpVal` (exact on finite operands). -/
def NpVal.mul : NpVal → NpVal → NpVal
  | fin a, fin b => fin (a * b)
  | fin a, posInf => if 0 < a then posInf else if a < 0 then negInf else nan
  | fin a, negInf => if 0 < a then negInf else if a < 0 then posInf else nan
  | fin _, nan => nan
  | posInf, fin b => if 0 < b then posInf else if b < 0 then negInf else nan
  | posInf, posInf => posInf
  | posInf, negInf => negInf
  | posInf, nan => nan
  | negInf, fin b => if 0 < b then negInf else if b < 0 then posInf else nan
  | negInf, posInf => negInf
  | negInf, negInf => posInf
  | negInf, nan => nan
  | nan, _ => nan

/-- numpy float64 division on `NpVal`: dividing a finite value by zero
does not raise, it yields `inf`, `-inf` or `nan` by the sign of the
numerator (a `RuntimeWarning` is printed, which is not an exception). -/
def NpVal.div : NpVal → NpVal → NpVal
  | fin a, fin b =>
    if b = 0 then (if 0 < a then posInf else if a < 0 then negInf else nan)
    else fin (a / b)
  | fin _, posInf => fin 0
  | fin _, negInf => fin 0
  | fin _, nan => nan
  | posInf, fin b => if 0 ≤ b then posInf else negInf
  | posInf, posInf => nan
  | posInf, negInf => nan
  | posInf, nan => nan
  | negInf, fin b => if 0 ≤ b then negInf else posInf
  | negInf, posInf => nan
  | negInf, negInf => nan
  | negInf, nan => nan
  | nan, _ => nan

/-- The instance fields a `Portfolio` object carries.
`dwn_dev_sq` stores the radicand of `self.dwn_dev = np.sqrt(np.sum(self.ner))`
(the square of the downside deviation, which is rational where the
deviation itself need not be); `none` means the attribute has not been
assigned yet.  Likewise `portf_beta` is `none` before the first
`portfolio_beta` call. -/
structure PortfolioState where
  risk_free_rate : ℚ
  /-- the retained per-asset Close series (`self.portf_data`) -/
  portf_data : List (List ℚ)
  portf_value : List ℚ
  portf_return : ℚ
  ner : List ℚ
  dwn_dev_sq : Option ℚ
  portf_beta : Option NpVal
deriving DecidableEq, Repr

/-- `Portfolio.__post_init__`: run `_download_data` (here: receive the
already-fetched per-asset Close series), `_portfolio_return`, then
`_negative_excess_returns`.  Construction fails with the Python exception
the corresponding line would raise. -/
def construct (asset_list : List (List ℚ)) (risk_free_rate : ℚ) :
    Except PyErr PortfolioState :=
  match portf_value_acc asset_list with
  | none => .error .typeError
  | some pv =>
    match portfolio_return pv with
    | .error e => .error e
    | .ok r =>
      .ok { risk_free_rate := risk_free_rate
            portf_data := asset_list
            portf_value := pv
            portf_return := r
            ner := negative_excess_returns pv risk_free_rate
            dwn_dev_sq := none
            portf_beta := none }

/-- The value `sortino_ratio` computes and returns.
`finite num dsq` stands for the real number `num / Real.sqrt dsq` with
`dsq ≠ 0` (the downside deviation is irrational in general, so it is kept
as its radicand); when `np.sum(self.ner)` is `0` the division
`(portf_return - risk_free_rate) / 0.0` is a float division by zero and
produces `inf`, `-inf` or `nan` by the sign of the numerator. -/
inductive SortinoResult where
  | finite (num dsq : ℚ)
  | posInf
  | negInf
  | nan
deriving DecidableEq, Repr

/-- The real number a finite `SortinoResult` denotes. -/
def SortinoResult.valIs : SortinoResult → ℝ → Prop
  | .finite num dsq, x => x = (num : ℝ) / Real.sqrt (dsq : ℝ)
  | _, _ => False

/-- The return value of `Portfolio.sortino_ratio`:
`dwn_dev = np.sqrt(np.sum(ner))`, result `(portf_return - rfr) / dwn_dev`.
`np.sqrt` of a negative sum would be `nan` (unreachable: the entries are
squares), and a zero sum routes the division through the float
divide-by-zero behaviour. -/
def sortino_value (st : PortfolioState) : SortinoResult :=
  let s := st.ner.sum
  let num := st.portf_return - st.risk_free_rate
  if s = 0 then
    if 0 < num then .posInf else if num < 0 then .negInf else .nan
  else if s < 0 then .nan
  else .finite num s

/-- `Portfolio.sortino_ratio` as a state transformer: it assigns
`self.dwn_dev` (a genuine attribute write on the object) and returns the
ratio. -/
def sortino_ratio (st : PortfolioState) : PortfolioState × SortinoResult :=
  ({ st with dwn_dev_sq := some st.ner.sum }, sortino_value st)

/-- `_bench_return = (close[0] / close[-1] - 1) * 100` — note the source
divides the price at position 0 by the price at position -1.  The comment
in the source asserts position 0 is the LAST price, but `yf.download`
returns chronological data with the oldest date first, exactly as the
sibling `_portfolio_return` docstring says. -/
def bench_return (bench : List ℚ) : ℚ :=
  match bench with
  | [] => 0
  | b0 :: rest => (b0 / (b0 :: rest).getLastD b0 - 1) * 100

/-- `_asset_return = (i[0] / i[-1] - 1) * 100` on a retained asset series
(same inverted index order as `bench_return`).  Per-asset series are
non-empty by the PriceSeries invariant; the `headD`/`getLastD` defaults are
never reached under it. -/
def asset_return (i : List ℚ) : ℚ := (i.headD 0 / i.getLastD 0 - 1) * 100

/-- `_asset_share = i[0] / portf_value[0]`. -/
def asset_share (i : List ℚ) (portf_value : List ℚ) : ℚ :=
  i.headD 0 / portf_value.headD 0

/-- The per-asset contribution accumulated into `self.portf_beta`:
`asset_beta * asset_share / len(portf_data)` with
`asset_beta = (asset_return - rfr) / (bench_return - rfr)`.
The beta division is the site §4.5's guard talks about, so it goes through
`NpVal.div` to keep the float divide-by-zero outcome. -/
def beta_term (st : PortfolioState) (br : ℚ) (i : List ℚ) : NpVal :=
  (((NpVal.fin (asset_return i - st.risk_free_rate)).div
      (NpVal.fin (br - st.risk_free_rate))).mul
    (NpVal.fin (asset_share i st.portf_value))).div
    (NpVal.fin (st.portf_data.length : ℚ))

/-- `Portfolio.portfolio_beta`, value part: download the benchmark (taken
here as the argument `bench`), compute `_bench_return`, then loop over
`portf_data` accumulating `self.portf_beta` from `0`.  An empty benchmark
raises `IndexError` at `close[0]` before any state is written. -/
def portfolio_beta_value (st : PortfolioState) (bench : List ℚ) :
    Except PyErr NpVal :=
  match bench with
  | [] => .error .indexError
  | b0 :: rest =>
    .ok ((st.portf_data.foldl
      (fun acc i => acc.add (beta_term st (bench_return (b0 :: rest)) i))
      (NpVal.fin 0)))

/-- `Portfolio.portfolio_beta` as a state transformer: on success it has
assigned `self.portf_beta` and returns it. -/
def portfolio_beta (st : PortfolioState) (bench : List ℚ) :
    Except PyErr (PortfolioState × NpVal) :=
  match portfolio_beta_value st bench with
  | .error e => .error e
  | .ok b => .ok ({ st with portf_beta := some b }, b)

/-- Construct a portfolio and compute its beta (the composition a caller
performs); used to state order-invariance of the whole pipeline. -/
def beta_of (asset_list : List (List ℚ)) (risk_free_rate : ℚ)
    (bench : List ℚ) : Except PyErr NpVal :=
  match construct asset_list risk_free_rate with
  | .error e => .error e
  | .ok st => portfolio_beta_value st bench

/-! ## Concrete states used as evaluation points

Each is the state `Portfolio.__post_init__` produces on the asset data and
risk-free rate its doc comment names (the corresponding `construct`
equation is proved where the state is used). -/

/-- One asset with close series `[100, 120]`, rate `0`. -/
def stA : PortfolioState :=
  { risk_free_rate := 0, portf_data := [[100, 120]], portf_value := [100, 120]
    portf_return := 20, ner := [], dwn_dev_sq := none, portf_beta := none }

/-- Two assets, each `[100, 120]`, rate `0`: same aggregate value series as
`stA`. -/
def stB : PortfolioState :=
  { risk_free_rate := 0, portf_data := [[100, 120], [100, 120]]
    portf_value := [100, 120], portf_return := 20, ner := []
    dwn_dev_sq := none, portf_beta := none }

/-- One asset `[100, 200]`, rate `0`: the portfolio never dips below its
threshold `100 + 0`, so `ner` is empty. -/
def stC1state : PortfolioState :=
  { risk_free_rate := 0, portf_data := [[100, 200]], portf_value := [100, 200]
    portf_return := 100, ner := [], dwn_dev_sq := none, portf_beta := none }

/-- Scenario A of §8: two assets, each `[100, 110, 90, 120]`, rate `5`. -/
def stC3state : PortfolioState :=
  { risk_free_rate := 5
    portf_data := [[100, 110, 90, 120], [100, 110, 90, 120]]
    portf_value := [100, 110, 90, 120], portf_return := 20
    ner := [10000 / 441, 10000 / 49], dwn_dev_sq := none, portf_beta := none }

/-- One asset `[100, 200]`, rate `100`: against the benchmark `[200, 100]`
the code's benchmark return `(200/100 - 1) * 100 = 100` equals the
risk-free rate. -/
def stC6state : PortfolioState :=
  { risk_free_rate := 100, portf_data := [[100, 200]]
    portf_value := [100, 200], portf_return := 100, ner := [2500]
    dwn_dev_sq := none, portf_beta := none }

/-- One asset `[100, 200]`, rate `1`. -/
def stC8state : PortfolioState :=
  { risk_free_rate := 1, portf_data := [[100, 200]], portf_value := [100, 200]
    portf_return := 100, ner := [10000 / 10201]
    dwn_dev_sq := none, portf_beta := none }

/-- `stC8state` after its `portfolio_beta` call against bench `[100, 200]`
has cached `self.portf_beta = 1`. -/
def stC8after : PortfolioState :=
  { stC8state with portf_beta := some (.fin 1) }

/-- One asset `[100]`, rate `5`. -/
def stC10state : PortfolioState :=
  { risk_free_rate := 5, portf_data := [[100]], portf_value := [100]
    portf_return := 0, ner := [10000 / 441], dwn_dev_sq := none
    portf_beta := none }

/-! ## Helper lemmas -/

/-- The append-if loop of `_negative_excess_returns`, in closed form. -/
theorem foldl_filter_append {α β : Type} (p : α → Prop) [DecidablePred p] (f : α → β) :
    ∀ (l : List α) (acc : List β),
      l.foldl (fun a i => if p i then a ++ [f i] else a) acc
        = acc ++ (l.filter (fun i => decide (p i))).map f
  | [], acc => by simp
  | i :: l, acc => by
    by_cases h : p i <;>
      simp [List.foldl_cons, h, foldl_filter_append p f l, List.filter_cons]

/-- `negative_excess_returns` in closed form: one entry per qualifying
value, in series order, nothing else. -/
theorem ner_eq_filter_map (v0 : ℚ) (rest : List ℚ) (rfr : ℚ) :
    negative_excess_returns (v0 :: rest) rfr
      = ((v0 :: rest).filter (fun x => decide (x < v0 + rfr))).map
          (fun x => ((x / (v0 + rfr) - 1) * 100) ^ 2) := by
  show List.foldl _ [] (v0 :: rest) = _
  exact foldl_filter_append (fun x : ℚ => x < v0 + rfr)
    (fun x => ((x / (v0 + rfr) - 1) * 100) ^ 2) (v0 :: rest) []

/-- A left fold by a right-commutative function is permutation-invariant. -/
theorem foldl_perm {α β : Type} (f : β → α → β)
    (hf : ∀ b x y, f (f b x) y = f (f b y) x) :
    ∀ {l₁ l₂ : List α}, l₁.Perm l₂ → ∀ b, l₁.foldl f b = l₂.foldl f b := by
  intro l₁ l₂ h
  induction h with
  | nil => intro b; rfl
  | cons x _ ih => intro b; simp only [List.foldl_cons]; exact ih _
  | swap x y l => intro b; simp only [List.foldl_cons]; rw [hf]
  | trans _ _ ih₁ ih₂ => intro b; rw [ih₁, ih₂]

theorem seriesAdd_comm (a b : List ℚ) : seriesAdd a b = seriesAdd b a :=
  List.zipWith_comm_of_comm (fun x y : ℚ => x + y) add_comm a b

theorem seriesAdd_right_comm : ∀ (v x y : List ℚ),
    seriesAdd (seriesAdd v x) y = seriesAdd (seriesAdd v y) x
  | [], _, _ => by simp [seriesAdd]
  | _ :: _, [], [] => by simp [seriesAdd]
  | _ :: _, [], _ :: _ => by simp [seriesAdd]
  | _ :: _, _ :: _, [] => by simp [seriesAdd]
  | a :: v, b :: x, c :: y => by
    simp only [seriesAdd, List.zipWith_cons_cons, List.cons.injEq]
    exact ⟨by ring, seriesAdd_right_comm v x y⟩

theorem pandasAdd_right_comm (acc : Option (List ℚ)) (x y : List ℚ) :
    pandasAdd (pandasAdd acc x) y = pandasAdd (pandasAdd acc y) x := by
  cases acc with
  | none => simp [pandasAdd, seriesAdd_comm x y]
  | some v => simp [pandasAdd, seriesAdd_right_comm v x y]

theorem NpVal.add_right_comm (a x y : NpVal) :
    (a.add x).add y = (a.add y).add x := by
  cases a <;> cases x <;> cases y <;> simp only [NpVal.add, NpVal.fin.injEq] <;> ring

/-- What a successful construction pins down about the resulting state. -/
theorem construct_ok_spec {a : List (List ℚ)} {r : ℚ} {st : PortfolioState}
    (h : construct a r = .ok st) :
    portf_value_acc a = some st.portf_value ∧
    portfolio_return st.portf_value = .ok st.portf_return ∧
    st.risk_free_rate = r ∧ st.portf_data = a ∧
    st.ner = negative_excess_returns st.portf_value r ∧
    st.dwn_dev_sq = none ∧ st.portf_beta = none := by
  unfold construct at h
  split at h
  next => exact absurd h (by simp)
  next pv hacc =>
    split at h
    next e hr => exact absurd h (by simp)
    next ret hr =>
      simp only [Except.ok.injEq] at h
      subst h
      exact ⟨hacc, hr, rfl, rfl, rfl, rfl, rfl⟩

/-- A successful `_portfolio_return` forces a non-empty value series. -/
theorem portfolio_return_ok_ne_nil {v : List ℚ} {r : ℚ}
    (h : portfolio_return v = .ok r) : v ≠ [] := by
  intro hv
  subst hv
  simp [portfolio_return] at h

/-- `getD` at an in-range index ignores the default. -/
theorem getD_in_range (l : List ℚ) (n : ℕ) (d d' : ℚ) (h : n < l.length) :
    l.getD n d = l.getD n d' := by
  rw [List.getD_eq_getElem?_getD, List.getD_eq_getElem?_getD,
    List.getElem?_eq_getElem h]
  rfl

/-- On a non-empty list, `getLastD` is `getD` at the last index. -/
theorem getLastD_eq_getD :
    ∀ (l : List ℚ) (d : ℚ), l ≠ [] → l.getLastD d = l.getD (l.length - 1) d
  | [], _, h => absurd rfl h
  | [_], _, _ => rfl
  | a :: b :: l, d, _ => by
    rw [List.getLastD_cons, getLastD_eq_getD (b :: l) a (by simp)]
    exact getD_in_range (b :: l) l.length a d (by simp)

/-! ## Claims -/

/-- C4: for every portfolio value series and risk-free rate, the
NegativeExcessReturnSet contains exactly one entry
`((v / (value[first] + risk_free_rate) - 1) * 100) ^ 2` for each value `v`
in the series with `v < value[first] + risk_free_rate`, and no other
entries; the threshold is the additive offset
`value[first] + risk_free_rate`.  (On the empty series the set is empty;
on `v0 :: rest` the loop is exactly a filter-then-map.) -/
theorem C4_negative_excess_returns_exact (v0 : ℚ) (rest : List ℚ) (rfr : ℚ) :
    negative_excess_returns (v0 :: rest) rfr
      = ((v0 :: rest).filter (fun x => decide (x < v0 + rfr))).map
          (fun x => ((x / (v0 + rfr) - 1) * 100) ^ 2) :=
  ner_eq_filter_map v0 rest rfr

/-- C7 counterexample: a portfolio value series with exactly one point —
fewer than 2 — does NOT fail: `_portfolio_return` computes
`(v[-1]/v[0] - 1) * 100 = 0` and succeeds.  No `InsufficientDataError`
exists anywhere in the source. -/
theorem C7_single_point_succeeds : portfolio_return [100] = .ok 0 := by
  norm_num [portfolio_return]

/-- C7 amended: on a series with 0 points `_portfolio_return` raises a
plain `IndexError` (from `portf_value[-1]`), and on a series with exactly
one (nonzero) point it succeeds with a return of `0`; it never raises an
`InsufficientDataError` (the source defines no such class). -/
theorem C7_short_series_behaviour :
    portfolio_return ([] : List ℚ) = .error .indexError ∧
    ∀ x : ℚ, x ≠ 0 → portfolio_return [x] = .ok 0 := by
  refine ⟨rfl, fun x hx => ?_⟩
  simp [portfolio_return, div_self hx]

/-- C7 witness: the amended statement applied at the one-point series
`[100]`. -/
theorem C7_short_series_behaviour_witness :
    portfolio_return ([] : List ℚ) = .error .indexError ∧
    portfolio_return [100] = .ok 0 :=
  ⟨C7_short_series_behaviour.1, C7_short_series_behaviour.2 100 (by norm_num)⟩

/-- C2: evaluation of the beta-side return computations at the
chronological series `[100, 200]` (oldest first, as `yfinance` delivers
it).  The code computes `(price[0]/price[-1] - 1) * 100 = -50` for both the
benchmark and the asset — the INVERSE of the `(last/first - 1) * 100`
convention that `_portfolio_return` uses on the very same data (which
yields `100`).  The claim (and §4.5 of the spec, and the docstring of
`_portfolio_return` itself) requires `(price[last]/price[first] - 1) * 100`;
the comment above `_bench_return` wrongly asserts index 0 holds the last
price. -/
theorem C2_beta_return_convention_eval :
    bench_return [100, 200] = -50 ∧
    asset_return [100, 200] = -50 ∧
    portfolio_return [100, 200] = .ok 100 ∧
    bench_return [100, 200] ≠ ((200 : ℚ) / 100 - 1) * 100 := by
  refine ⟨by norm_num [bench_return], by norm_num [asset_return],
    by norm_num [portfolio_return], by norm_num [bench_return]⟩

/-- C5: for every portfolio value series with at least 2 points and
nonzero first value, the portfolio return is
`(value[last] / value[first] - 1) * 100`; and the computation is a pure
function of the value series — any two successfully constructed portfolios
with the same value series have the same stored return, whatever their
asset lists and risk-free rates. -/
theorem C5_portfolio_return_formula_pure :
    (∀ v : List ℚ, 2 ≤ v.length → v.getD 0 0 ≠ 0 →
      portfolio_return v = .ok ((v.getD (v.length - 1) 0 / v.getD 0 0 - 1) * 100)) ∧
    (∀ a₁ r₁ a₂ r₂ st₁ st₂, construct a₁ r₁ = .ok st₁ → construct a₂ r₂ = .ok st₂ →
      st₁.portf_value = st₂.portf_value → st₁.portf_return = st₂.portf_return) := by
  constructor
  · intro v h2 _
    cases v with
    | nil => simp at h2
    | cons v0 rest =>
      simp only [portfolio_return, Except.ok.injEq]
      rw [getLastD_eq_getD _ _ (by simp),
        getD_in_range (v0 :: rest) ((v0 :: rest).length - 1) v0 0 (by simp),
        List.getD_cons_zero]
  · intro a₁ r₁ a₂ r₂ st₁ st₂ h₁ h₂ hv
    have e₁ := (construct_ok_spec h₁).2.1
    have e₂ := (construct_ok_spec h₂).2.1
    rw [hv] at e₁
    exact (Except.ok.inj (e₂.symm.trans e₁)).symm

/-- C5 witness: the formula applied to the 2-point series `[100, 120]`,
and purity applied to two different constructions sharing that value
series. -/
theorem C5_portfolio_return_formula_pure_witness :
    portfolio_return [100, 120]
      = .ok ((([100, 120] : List ℚ).getD (([100, 120] : List ℚ).length - 1) 0
          / ([100, 120] : List ℚ).getD 0 0 - 1) * 100) ∧
    stA.portf_return = stB.portf_return :=
  ⟨C5_portfolio_return_formula_pure.1 [100, 120] (by norm_num) (by norm_num),
   C5_portfolio_return_formula_pure.2 [[100, 120]] 0 [[100, 120], [100, 120]] 0 stA stB
     (by norm_num [construct, portf_value_acc, pandasAdd, seriesAdd, portfolio_return,
        negative_excess_returns, stA])
     (by norm_num [construct, portf_value_acc, pandasAdd, seriesAdd, portfolio_return,
        negative_excess_returns, stB])
     rfl⟩

/-- Each appended negative-excess entry is strictly positive: the strict
threshold comparison rules out a zero deviation. -/
theorem ner_entry_pos {x v0 rfr : ℚ} (h : x < v0 + rfr) :
    0 < ((x / (v0 + rfr) - 1) * 100) ^ 2 := by
  have hne : (x / (v0 + rfr) - 1) * 100 ≠ 0 := by
    refine mul_ne_zero (fun hz => ?_) (by norm_num)
    have hx1 : x / (v0 + rfr) = 1 := by linarith
    rcases eq_or_ne (v0 + rfr) 0 with ht | ht
    · rw [ht, div_zero] at hx1
      exact one_ne_zero hx1.symm
    · rw [div_eq_one_iff_eq ht] at hx1
      exact absurd hx1 (ne_of_lt h)
  exact (sq_nonneg _).lt_of_ne (Ne.symm (pow_ne_zero 2 hne))

/-- Every element of a non-empty series' negative-excess list is strictly
positive. -/
theorem ner_all_pos (v0 : ℚ) (rest : List ℚ) (rfr : ℚ) :
    ∀ e ∈ negative_excess_returns (v0 :: rest) rfr, 0 < e := by
  intro e he
  rw [ner_eq_filter_map] at he
  obtain ⟨x, hx, rfl⟩ := List.mem_map.1 he
  exact ner_entry_pos (by simpa using (List.mem_filter.1 hx).2)

/-- The sum of the negative-excess list is never negative. -/
theorem ner_sum_nonneg (v : List ℚ) (rfr : ℚ) :
    0 ≤ (negative_excess_returns v rfr).sum := by
  cases v with
  | nil => simp [negative_excess_returns]
  | cons v0 rest =>
    exact List.sum_nonneg (fun e he => (ner_all_pos v0 rest rfr e he).le)

/-- C1 counterexample: the portfolio built from the single close series
`[100, 200]` at risk-free rate `0` has an empty NegativeExcessReturnSet,
and calling `sortino_ratio` on it raises nothing — it divides
`portf_return - risk_free_rate = 100` by the float `0.0` and returns
`+inf`, directly contradicting "raises UndefinedRatioError; never returns
infinity or NaN". -/
theorem C1_empty_ner_returns_infinity :
    construct [[100, 200]] 0 = .ok stC1state ∧
    stC1state.ner = [] ∧
    (sortino_ratio stC1state).2 = .posInf := by
  refine ⟨?_, rfl, ?_⟩
  · norm_num [construct, portf_value_acc, pandasAdd, seriesAdd, portfolio_return,
      negative_excess_returns, stC1state]
  · norm_num [sortino_ratio, sortino_value, stC1state]

/-- C1 amended: for every portfolio state whose NegativeExcessReturnSet is
empty, `sortino_ratio` raises no exception at all (the source defines no
`UndefinedRatioError`); the float division by the zero downside deviation
returns `+inf` when the return exceeds the risk-free rate, `-inf` when it
falls short, and `NaN` when they are equal — never a finite value. -/
theorem C1_empty_ner_behaviour (st : PortfolioState) (h : st.ner = []) :
    ((0 < st.portf_return - st.risk_free_rate → (sortino_ratio st).2 = .posInf) ∧
     (st.portf_return - st.risk_free_rate < 0 → (sortino_ratio st).2 = .negInf) ∧
     (st.portf_return - st.risk_free_rate = 0 → (sortino_ratio st).2 = .nan)) ∧
    ∀ num dsq, (sortino_ratio st).2 ≠ .finite num dsq := by
  have hs : st.ner.sum = 0 := by rw [h]; rfl
  refine ⟨⟨fun hpos => ?_, fun hneg => ?_, fun h0 => ?_⟩, fun num dsq => ?_⟩
  · simp [sortino_ratio, sortino_value, hs, hpos]
  · simp [sortino_ratio, sortino_value, hs, hneg, asymm hneg]
  · simp [sortino_ratio, sortino_value, hs, h0]
  · rcases lt_trichotomy (st.portf_return - st.risk_free_rate) 0 with hlt | heq | hgt
    · simp [sortino_ratio, sortino_value, hs, hlt, asymm hlt]
    · simp [sortino_ratio, sortino_value, hs, heq]
    · simp [sortino_ratio, sortino_value, hs, hgt]

/-- C1 witness: the amended behaviour at the concrete empty-`ner` state. -/
theorem C1_empty_ner_behaviour_witness :
    stC1state.ner = [] ∧
    0 < stC1state.portf_return - stC1state.risk_free_rate ∧
    (sortino_ratio stC1state).2 = .posInf :=
  ⟨rfl, by norm_num [stC1state],
   (C1_empty_ner_behaviour stC1state rfl).1.1 (by norm_num [stC1state])⟩

/-- C3: on two identical assets with close series `[100, 110, 90, 120]`
and risk-free rate `5`, the aggregate value series is `[100, 110, 90, 120]`,
the portfolio return is exactly `(120/100 - 1) * 100 = 20`, the
NegativeExcessReturnSet is exactly
`[((100/105 - 1) * 100)^2, ((90/105 - 1) * 100)^2] = [10000/441, 10000/49]`
(≈ 22.67 and 204.08), `sortino_ratio` stores the squared downside
deviation `100000/441` (downside deviation ≈ 15.06) and returns the value
`(20 - 5) / sqrt(10000/441 + 10000/49)` (≈ 0.996). -/
theorem C3_scenario_A :
    construct [[100, 110, 90, 120], [100, 110, 90, 120]] 5 = .ok stC3state ∧
    stC3state.portf_return = 20 ∧
    stC3state.ner = [10000 / 441, 10000 / 49] ∧
    (sortino_ratio stC3state).1.dwn_dev_sq = some (100000 / 441) ∧
    (sortino_ratio stC3state).2 = .finite 15 (100000 / 441) ∧
    SortinoResult.valIs (sortino_ratio stC3state).2
      (((20 : ℝ) - 5) / Real.sqrt ((10000 : ℝ) / 441 + (10000 : ℝ) / 49)) := by
  have h5 : (sortino_ratio stC3state).2 = .finite 15 (100000 / 441) := by
    norm_num [sortino_ratio, sortino_value, stC3state]
  refine ⟨?_, rfl, rfl, ?_, h5, ?_⟩
  · norm_num [construct, portf_value_acc, pandasAdd, seriesAdd, portfolio_return,
      negative_excess_returns, stC3state]
  · norm_num [sortino_ratio, stC3state]
  · rw [h5]
    show ((20 : ℝ) - 5) / Real.sqrt ((10000 : ℝ) / 441 + (10000 : ℝ) / 49)
        = ((15 : ℚ) : ℝ) / Real.sqrt (((100000 / 441 : ℚ) : ℝ))
    have hr : ((10000 : ℝ) / 441 + (10000 : ℝ) / 49) = ((100000 / 441 : ℚ) : ℝ) := by
      push_cast
      norm_num
    rw [hr]
    norm_num

/-- C10: for every successfully constructed portfolio (its value series is
then non-empty) and every strictly positive risk-free rate, the first
value is strictly below the threshold `value[first] + risk_free_rate`, so
the NegativeExcessReturnSet is non-empty with strictly positive entries,
its sum is strictly positive, and `sortino_ratio` takes the finite branch:
its denominator `sqrt` of that sum is never zero. -/
theorem C10_positive_rate_gives_positive_downside (assets : List (List ℚ))
    (rfr : ℚ) (st : PortfolioState) (hpos : 0 < rfr)
    (h : construct assets rfr = .ok st) :
    st.portf_value.getD 0 0 < st.portf_value.getD 0 0 + rfr ∧
    st.ner ≠ [] ∧ 0 < st.ner.sum ∧
    ∃ num dsq, sortino_value st = .finite num dsq ∧ 0 < dsq := by
  obtain ⟨_, hret, hrfr, _, hner, _, _⟩ := construct_ok_spec h
  obtain ⟨v0, rest, hv⟩ := List.exists_cons_of_ne_nil (portfolio_return_ok_ne_nil hret)
  have hner' : st.ner = negative_excess_returns (v0 :: rest) rfr := by
    rw [hner, hv]
  have hmem : ((v0 / (v0 + rfr) - 1) * 100) ^ 2
      ∈ negative_excess_returns (v0 :: rest) rfr := by
    rw [ner_eq_filter_map]
    refine List.mem_map_of_mem _ (List.mem_filter.2 ⟨List.mem_cons_self _ _, ?_⟩)
    simpa using by linarith
  have hnonempty : st.ner ≠ [] := by
    rw [hner']
    exact List.ne_nil_of_mem hmem
  have hsum : 0 < st.ner.sum := by
    rw [hner']
    exact List.sum_pos _ (ner_all_pos v0 rest rfr) (by rw [← hner']; exact hnonempty)
  refine ⟨by linarith, hnonempty, hsum, st.portf_return - st.risk_free_rate, st.ner.sum, ?_, hsum⟩
  simp [sortino_value, ne_of_gt hsum, asymm hsum]

/-- C10 witness: the theorem at the one-asset portfolio `[[100]]` with
rate `5`. -/
theorem C10_positive_rate_witness :
    0 < (5 : ℚ) ∧
    (stC10state.portf_value.getD 0 0 < stC10state.portf_value.getD 0 0 + 5 ∧
     stC10state.ner ≠ [] ∧ 0 < stC10state.ner.sum ∧
     ∃ num dsq, sortino_value stC10state = .finite num dsq ∧ 0 < dsq) :=
  ⟨by norm_num,
   C10_positive_rate_gives_positive_downside [[100]] 5 stC10state (by norm_num)
     (by norm_num [construct, portf_value_acc, pandasAdd, seriesAdd,
        portfolio_return, negative_excess_returns, stC10state])⟩

/-- C8 counterexample: the metric methods DO write portfolio fields.  On
the freshly constructed portfolio from `[[100, 200]]` at rate `1`,
`sortino_ratio` assigns `self.dwn_dev` (so the post-call state differs
from the pre-call state), and `portfolio_beta` assigns `self.portf_beta`;
neither write is a benchmark-fetch cache (the benchmark is re-downloaded
on every call and kept only in a local). -/
theorem C8_methods_write_fields :
    construct [[100, 200]] 1 = .ok stC8state ∧
    (sortino_ratio stC8state).1 ≠ stC8state ∧
    portfolio_beta stC8state [100, 200] = .ok (stC8after, .fin 1) ∧
    stC8after ≠ stC8state := by
  refine ⟨?_, ?_, ?_, ?_⟩
  · norm_num [construct, portf_value_acc, pandasAdd, seriesAdd, portfolio_return,
      negative_excess_returns, stC8state]
  · simp [sortino_ratio, stC8state]
  · norm_num [portfolio_beta, portfolio_beta_value, bench_return, beta_term,
      asset_return, asset_share, NpVal.div, NpVal.mul, NpVal.add,
      stC8state, stC8after]
  · simp [stC8after, stC8state]

/-- C8 amended: the metric methods never touch the derived data — the
value series, negative-excess set, retained per-asset series, stored
return and rate are all preserved — but each caches its own result in a
field (`dwn_dev` for `sortino_ratio`, `portf_beta` for `portfolio_beta`);
a second call is a no-op on the state and returns the same result. -/
theorem C8_metric_methods_idempotent :
    (∀ st : PortfolioState,
      ((sortino_ratio st).1.risk_free_rate = st.risk_free_rate ∧
       (sortino_ratio st).1.portf_data = st.portf_data ∧
       (sortino_ratio st).1.portf_value = st.portf_value ∧
       (sortino_ratio st).1.portf_return = st.portf_return ∧
       (sortino_ratio st).1.ner = st.ner ∧
       (sortino_ratio st).1.portf_beta = st.portf_beta) ∧
      sortino_ratio (sortino_ratio st).1
        = ((sortino_ratio st).1, (sortino_ratio st).2)) ∧
    (∀ st bench st' b, portfolio_beta st bench = .ok (st', b) →
      (st'.risk_free_rate = st.risk_free_rate ∧
       st'.portf_data = st.portf_data ∧
       st'.portf_value = st.portf_value ∧
       st'.portf_return = st.portf_return ∧
       st'.ner = st.ner ∧
       st'.dwn_dev_sq = st.dwn_dev_sq) ∧
      portfolio_beta st' bench = .ok (st', b)) := by
  constructor
  · intro st
    exact ⟨⟨rfl, rfl, rfl, rfl, rfl, rfl⟩, rfl⟩
  · intro st bench st' b h
    unfold portfolio_beta at h
    split at h
    next e hv => exact absurd h (by simp)
    next bv hv =>
      simp only [Except.ok.injEq, Prod.mk.injEq] at h
      obtain ⟨hst, hb⟩ := h
      subst hst
      subst hb
      refine ⟨⟨rfl, rfl, rfl, rfl, rfl, rfl⟩, ?_⟩
      have hv' : portfolio_beta_value { st with portf_beta := some bv } bench
          = .ok bv := hv
      simp [portfolio_beta, hv']

/-- C8 witness: the amended statement exercised at a concrete portfolio
and benchmark, with the `portfolio_beta` hypothesis discharged by
evaluation. -/
theorem C8_metric_methods_idempotent_witness :
    (sortino_ratio stC8state).1.ner = stC8state.ner ∧
    portfolio_beta stC8after [100, 200] = .ok (stC8after, .fin 1) :=
  ⟨(C8_metric_methods_idempotent.1 stC8state).1.2.2.2.2.1,
   (C8_metric_methods_idempotent.2 stC8state [100, 200] stC8after (.fin 1)
     (by norm_num [portfolio_beta, portfolio_beta_value, bench_return, beta_term,
        asset_return, asset_share, NpVal.div, NpVal.mul, NpVal.add,
        stC8state, stC8after])).2⟩

/-- Dividing a finite float by zero never produces a finite value. -/
theorem NpVal.div_fin_zero_not_fin (a : ℚ) :
    ∀ q, (NpVal.fin a).div (NpVal.fin 0) ≠ .fin q := by
  intro q
  simp only [NpVal.div, if_pos rfl]
  split_ifs <;> simp

/-- Multiplying a non-finite float by a finite one stays non-finite. -/
theorem NpVal.mul_fin_not_fin {a : NpVal} (ha : ∀ q, a ≠ .fin q) (c : ℚ) :
    ∀ q, a.mul (.fin c) ≠ .fin q := by
  intro q
  cases a with
  | fin x => exact absurd rfl (ha x)
  | posInf => simp only [NpVal.mul]; split_ifs <;> simp
  | negInf => simp only [NpVal.mul]; split_ifs <;> simp
  | nan => simp [NpVal.mul]

/-- Dividing a non-finite float by a finite one stays non-finite. -/
theorem NpVal.div_fin_not_fin {a : NpVal} (ha : ∀ q, a ≠ .fin q) (c : ℚ) :
    ∀ q, a.div (.fin c) ≠ .fin q := by
  intro q
  cases a with
  | fin x => exact absurd rfl (ha x)
  | posInf => simp only [NpVal.div]; split_ifs <;> simp
  | negInf => simp only [NpVal.div]; split_ifs <;> simp
  | nan => simp [NpVal.div]

/-- Adding anything to a non-finite float stays non-finite. -/
theorem NpVal.add_not_fin_left {a : NpVal} (ha : ∀ q, a ≠ .fin q) (t : NpVal) :
    ∀ q, a.add t ≠ .fin q := by
  intro q
  cases a with
  | fin x => exact absurd rfl (ha x)
  | posInf => cases t <;> simp [NpVal.add]
  | negInf => cases t <;> simp [NpVal.add]
  | nan => cases t <;> simp [NpVal.add]

/-- Adding a non-finite float to a finite one is non-finite. -/
theorem NpVal.add_not_fin_right (a : ℚ) {t : NpVal} (ht : ∀ q, t ≠ .fin q) :
    ∀ q, (NpVal.fin a).add t ≠ .fin q := by
  intro q
  cases t with
  | fin x => exact absurd rfl (ht x)
  | posInf => simp [NpVal.add]
  | negInf => simp [NpVal.add]
  | nan => simp [NpVal.add]

/-- A fold of float additions starting from a non-finite accumulator stays
non-finite. -/
theorem foldl_add_not_fin (g : List ℚ → NpVal) :
    ∀ (l : List (List ℚ)) {acc : NpVal}, (∀ q, acc ≠ .fin q) →
      ∀ q, (l.foldl (fun a i => a.add (g i)) acc) ≠ .fin q
  | [], _, ha => ha
  | i :: l, acc, ha => by
    simp only [List.foldl_cons]
    exact foldl_add_not_fin g l (NpVal.add_not_fin_left ha _)

/-- C6 counterexample: one asset `[100, 200]` at risk-free rate `100`
against benchmark `[200, 100]`: the code's benchmark return equals the
risk-free rate, yet `portfolio_beta` raises no `DegenerateBenchmarkError`
(no such class exists in the source) — the per-asset beta is the float
division `-150 / 0.0 = -inf`, which propagates to the returned beta. -/
theorem C6_no_guard_eval :
    construct [[100, 200]] 100 = .ok stC6state ∧
    bench_return [200, 100] = stC6state.risk_free_rate ∧
    portfolio_beta stC6state [200, 100]
      = .ok ({ stC6state with portf_beta := some .negInf }, .negInf) := by
  refine ⟨?_, by norm_num [bench_return, stC6state], ?_⟩
  · norm_num [construct, portf_value_acc, pandasAdd, seriesAdd, portfolio_return,
      negative_excess_returns, stC6state]
  · norm_num [portfolio_beta, portfolio_beta_value, bench_return, beta_term,
      asset_return, asset_share, NpVal.div, NpVal.mul, NpVal.add, stC6state]

/-- C6 amended: for every portfolio with at least one retained asset
series and every non-empty benchmark whose code-computed return equals the
risk-free rate, `portfolio_beta` succeeds (it raises nothing): each asset
beta divides by the float zero `bench_return - risk_free_rate`, and the
returned portfolio beta is a non-finite float (`inf`, `-inf` or `nan`),
never a finite number. -/
theorem C6_degenerate_benchmark_no_error (st : PortfolioState) (b0 : ℚ)
    (brest : List ℚ) (hbr : bench_return (b0 :: brest) = st.risk_free_rate)
    (hne : st.portf_data ≠ []) :
    ∃ b, portfolio_beta st (b0 :: brest) = .ok ({ st with portf_beta := some b }, b) ∧
      ∀ q, b ≠ .fin q := by
  obtain ⟨i, rest, hd⟩ := List.exists_cons_of_ne_nil hne
  have hterm : ∀ j q, beta_term st (bench_return (b0 :: brest)) j ≠ .fin q := by
    intro j q
    unfold beta_term
    rw [hbr, sub_self]
    exact NpVal.div_fin_not_fin (NpVal.mul_fin_not_fin (NpVal.div_fin_zero_not_fin _) _) _ q
  refine ⟨st.portf_data.foldl
      (fun acc j => acc.add (beta_term st (bench_return (b0 :: brest)) j))
      (NpVal.fin 0), rfl, ?_⟩
  rw [hd]
  intro q
  simp only [List.foldl_cons]
  exact foldl_add_not_fin _ rest (NpVal.add_not_fin_right 0 (hterm i)) q

/-- C6 witness: the amended statement at the concrete degenerate pair. -/
theorem C6_degenerate_benchmark_no_error_witness :
    bench_return [200, 100] = stC6state.risk_free_rate ∧
    stC6state.portf_data ≠ [] ∧
    (∃ b, portfolio_beta stC6state [200, 100]
        = .ok ({ stC6state with portf_beta := some b }, b) ∧ ∀ q, b ≠ .fin q) :=
  ⟨by norm_num [bench_return, stC6state], by simp [stC6state],
   C6_degenerate_benchmark_no_error stC6state 200 [100]
     (by norm_num [bench_return, stC6state]) (by simp [stC6state])⟩

/-- C9: for any two asset lists that are permutations of each other (each
asset keeping its own price series), with the same benchmark data and
risk-free rate, the whole pipeline — aggregate value series, construction,
and `portfolio_beta` — produces the identical beta. -/
theorem C9_beta_reorder_invariant (a₁ a₂ : List (List ℚ)) (rfr : ℚ)
    (bench : List ℚ) (h : a₁.Perm a₂) :
    beta_of a₁ rfr bench = beta_of a₂ rfr bench := by
  have hlen : a₁.length = a₂.length := h.length_eq
  have hpv : portf_value_acc a₁ = portf_value_acc a₂ := by
    unfold portf_value_acc
    rw [← hlen]
    apply foldl_perm
    · exact fun b x y => pandasAdd_right_comm b _ _
    · exact h
  unfold beta_of
  cases hacc : portf_value_acc a₁ with
  | none =>
    have hacc₂ : portf_value_acc a₂ = none := by rw [← hpv]; exact hacc
    simp [construct, hacc, hacc₂]
  | some pv =>
    have hacc₂ : portf_value_acc a₂ = some pv := by rw [← hpv]; exact hacc
    cases hr : portfolio_return pv with
    | error e => simp [construct, hacc, hacc₂, hr]
    | ok r =>
      simp only [construct, hacc, hacc₂, hr]
      cases bench with
      | nil => rfl
      | cons b0 brest =>
        have hterm : ∀ (br : ℚ) (i : List ℚ),
            beta_term { risk_free_rate := rfr, portf_data := a₁, portf_value := pv
                        portf_return := r, ner := negative_excess_returns pv rfr
                        dwn_dev_sq := none, portf_beta := none } br i
            = beta_term { risk_free_rate := rfr, portf_data := a₂, portf_value := pv
                          portf_return := r, ner := negative_excess_returns pv rfr
                          dwn_dev_sq := none, portf_beta := none } br i := by
          intro br i
          simp [beta_term, hlen]
        simp only [portfolio_beta_value, Except.ok.injEq]
        simp only [hterm]
        apply foldl_perm
        · exact fun b x y => NpVal.add_right_comm b _ _
        · exact h

/-- C9 witness: the invariance at the concrete swap of a two-asset
portfolio. -/
theorem C9_beta_reorder_invariant_witness :
    ([[1], [2]] : List (List ℚ)).Perm [[2], [1]] ∧
    beta_of [[1], [2]] 0 [1, 2] = beta_of [[2], [1]] 0 [1, 2] :=
  ⟨List.Perm.swap [2] [1] [],
   C9_beta_reorder_invariant [[1], [2]] [[2], [1]] 0 [1, 2]
     (List.Perm.swap [2] [1] [])⟩
